import Mathlib

/-!
Verification of the sloc line-counting utility (src/sloc.go).

Go strings are embedded as `List Char`; the helpers `goStartsWith`,
`goEndsWith` and `goTrimSpace` embed `strings.HasPrefix`,
`strings.HasSuffix` and `strings.TrimSpace`. File contents are lists of
physical lines; `bufio.Scanner` line splitting and the OS are modelled by
handing each function the lines it would read, together with explicit
error outcomes (`readOutcome`, `walkEntry.walkErr`).
-/

/-- Embeds `unicode.IsSpace` on the Latin-1 range (the whitespace set used by
`strings.TrimSpace`): space, tab, newline, vertical tab, form feed, carriage
return, next line, non-breaking space. -/
def goIsSpace (c : Char) : Bool :=
  c == ' ' || c == '\t' || c == '\n' || c == Char.ofNat 11 || c == Char.ofNat 12 ||
    c == '\r' || c == Char.ofNat 0x85 || c == Char.ofNat 0xA0

/-- Embeds `strings.HasPrefix s pat`. -/
def goStartsWith (s pat : List Char) : Bool :=
  List.isPrefixOf pat s

/-- Embeds `strings.HasSuffix s pat`. -/
def goEndsWith (s pat : List Char) : Bool :=
  List.isSuffixOf pat s

/-- Embeds `strings.TrimSpace`: drop whitespace from both ends. -/
def goTrimSpace (s : List Char) : List Char :=
  ((s.dropWhile goIsSpace).reverse.dropWhile goIsSpace).reverse

/-- Shorthand turning a Lean string literal into the `List Char` embedding of
a Go string. -/
def gs (s : String) : List Char :=
  s.data

/-- The `fileLines` struct (src/sloc.go lines 21-26): one record per scanned
file. Go's `int` counters only ever grow by 1 per physical line here, so they
are embedded as `Nat` (overflow is unreachable). -/
structure fileLines where
  filename : List Char
  codeLines : Nat
  commentLines : Nat
  whitespaceLines : Nat
deriving DecidableEq, Repr

/-- The `join` method (lines 28-32): add the three counters of `f` into the
receiver; the filename is untouched. -/
def fileLines.join (this : fileLines) (f : fileLines) : fileLines :=
  { this with
    codeLines := this.codeLines + f.codeLines
    commentLines := this.commentLines + f.commentLines
    whitespaceLines := this.whitespaceLines + f.whitespaceLines }

/-- The body of the scan loop of `getFileStats` (lines 54-78): trim the raw
line, then classify it by the chain of checks, in source order: blank,
line-comment `//`, block-open `/*` (setting `inComment` unless the line also
ends with `*/`), the carried `inComment` flag (cleared when the line ends
with `*/`), otherwise code. State is the pair (inComment, accumulated record). -/
def processLine (st : Bool × fileLines) (rawLine : List Char) : Bool × fileLines :=
  let line := goTrimSpace rawLine
  if line.length = 0 then
    (st.1, { st.2 with whitespaceLines := st.2.whitespaceLines + 1 })
  else if goStartsWith line (gs "//") then
    (st.1, { st.2 with commentLines := st.2.commentLines + 1 })
  else if goStartsWith line (gs "/*") then
    ((if !goEndsWith line (gs "*/") then true else st.1),
      { st.2 with commentLines := st.2.commentLines + 1 })
  else if st.1 then
    ((if goEndsWith line (gs "*/") then false else st.1),
      { st.2 with commentLines := st.2.commentLines + 1 })
  else
    (st.1, { st.2 with codeLines := st.2.codeLines + 1 })

/-- The whole scan loop of `getFileStats` over the successfully read lines:
`inComment` starts false and the record starts zeroed with the filename set
(line 49 and 52). -/
def scanLines (filename : List Char) (lines : List (List Char)) : fileLines :=
  (List.foldl processLine (false, ⟨filename, 0, 0, 0⟩) lines).2

/-- Outcome of `os.Open` plus `bufio.Scanner` on one file: the file opens and
every line is read; the open fails; or a read error occurs mid-stream after
some lines were already delivered. `bufio.Scanner` delivers lines while
`Scan` returns true (during which `Err()` is nil), and on a mid-stream error
`Scan` simply starts returning false. -/
inductive readOutcome
  | ok (lines : List (List Char))
  | openError
  | readError (linesBefore : List (List Char))
deriving DecidableEq

/-- Result of one `getFileStats` call: either a record, or the process dies
via `log.Fatal`. -/
inductive scanResult
  | fatal
  | record (r : fileLines)
deriving DecidableEq

/-- The lines actually delivered by the scanner for a given outcome. -/
def linesRead : readOutcome → List (List Char)
  | .ok lines => lines
  | .readError linesBefore => linesBefore
  | .openError => []

/-- Embeds `getFileStats` (lines 42-81). An open failure hits `log.Fatal` (line 45).
The in-loop `scanner.Err()` check (lines 56-58) can never fire: when `Scan`
has just returned true, `Err()` is nil. There is no `Err()` check after the
loop, so on a mid-stream read error the loop merely exits and the partially
accumulated record is returned as if complete. -/
def getFileStats (filename : List Char) (f : readOutcome) : scanResult :=
  match f with
  | .openError => .fatal
  | .ok lines => .record (scanLines filename lines)
  | .readError linesBefore => .record (scanLines filename linesBefore)

/-- One invocation of the callback made by `genFileProcessor` (lines 83-100):
the path visited and the walk error `filepath.Walk` passed for it
(non-nil for unreadable entries and for a root that cannot be stat'd),
plus the file's content outcome for when it does get opened. -/
structure walkEntry where
  path : List Char
  walkErr : Bool
  content : readOutcome
deriving DecidableEq

/-- What the `genFileProcessor` callback did for one entry. In every case the
callback returns a nil error to `filepath.Walk`. -/
inductive entryResult
  | skippedDebug
  | skippedError
  | emitted (r : fileLines)
  | fatalScan
deriving DecidableEq, Repr

/-- The callback returned by `genFileProcessor` (lines 84-99), in source
order: first the `.go` suffix check (non-matching paths are skipped with only
a `log.Debug` trace, line 86-89), then the walk-error check (`log.Error` and
skip, lines 91-94), then `getFileStats` is run and its record sent on the
channel (line 97); if `getFileStats` dies with `log.Fatal`, the whole process
dies. The callback itself always returns nil. -/
def fileProcessor (e : walkEntry) : entryResult :=
  if !goEndsWith e.path (gs ".go") then .skippedDebug
  else if e.walkErr then .skippedError
  else
    match getFileStats e.path e.content with
    | .fatal => .fatalScan
    | .record r => .emitted r

/-- Runs the callback over the sequence of entries `filepath.Walk` visits
across all roots, collecting the records emitted on the channel in order;
`none` when a scan hit `log.Fatal` (the process dies and nothing more is
emitted). -/
def processEntries : List walkEntry → Option (List fileLines)
  | [] => some []
  | e :: rest =>
    match fileProcessor e with
    | .fatalScan => none
    | .skippedDebug => processEntries rest
    | .skippedError => processEntries rest
    | .emitted r => Option.map (fun rs => r :: rs) (processEntries rest)

/-- One root argument of the program: either a path that cannot be stat'd, or
a reachable tree given as the list of entries `filepath.Walk` visits in it. -/
inductive rootInput
  | missing (path : List Char)
  | found (entries : List walkEntry)

/-- Embeds `filepath.Walk` semantics for one root: when the root cannot be stat'd,
the callback is invoked exactly once, on the root path with a non-nil error;
otherwise once per visited entry. `Walk` returns the callback's first non-nil
error — never here, since `fileProcessor` always returns nil, so the
`log.Fatal` guard in `main` (lines 178-180) is unreachable. -/
def rootEntries : rootInput → List walkEntry
  | .missing p => [⟨p, true, .ok []⟩]
  | .found es => es

/-- Embeds `processResults` (lines 102-133): drain the channel, appending one table
row per record in arrival order (columns filename, whitespace, comment, code,
lines 110-115) and folding every record into the running `TOTAL` via `join`
(line 109). Returns the rendered rows and the final total. -/
def processResults (results : List fileLines) :
    List (List Char × Nat × Nat × Nat) × fileLines :=
  (results.map (fun res => (res.filename, res.whitespaceLines, res.commentLines, res.codeLines)),
    List.foldl fileLines.join ⟨gs "TOTAL", 0, 0, 0⟩ results)

/-- Embeds `main` (lines 135-186) after flag parsing: walk each root sequentially,
emitting records into the single results channel consumed by
`processResults`; after all walks, the channel is closed and the report
printed. `none` when the process died via `log.Fatal` mid-scan (no report). -/
def mainRun (roots : List rootInput) :
    Option (List (List Char × Nat × Nat × Nat) × fileLines) :=
  Option.map processResults (processEntries (roots.flatMap rootEntries))

/-- Total of the three per-line counters of a record. -/
def fileLines.lineSum (r : fileLines) : Nat :=
  r.codeLines + r.commentLines + r.whitespaceLines

/-- Each loop iteration of `getFileStats` increments exactly one of the three
counters: the classification chain always ends in exactly one `++`. -/
lemma processLine_lineSum (st : Bool × fileLines) (rawLine : List Char) :
    (processLine st rawLine).2.lineSum = st.2.lineSum + 1 := by
  simp only [processLine, fileLines.lineSum]
  repeat' split
  all_goals dsimp only
  all_goals omega

/-- Folding the scan loop over any line list adds the number of lines to the
counter total, whatever the starting state. -/
lemma foldl_processLine_lineSum (lines : List (List Char)) :
    ∀ st : Bool × fileLines,
      (List.foldl processLine st lines).2.lineSum = st.2.lineSum + lines.length := by
  induction lines with
  | nil => intro st; simp
  | cons l ls ih =>
    intro st
    simp only [List.foldl_cons, List.length_cons, ih (processLine st l), processLine_lineSum]
    omega

/-- A string with a two-character prefix is nonempty. -/
lemma goStartsWith_ne_nil (s : List Char) (a b : Char)
    (h : goStartsWith s [a, b] = true) : s.length ≠ 0 := by
  cases s with
  | nil => simp [goStartsWith, List.isPrefixOf] at h
  | cons c t => simp

/-- A string starting with the block-open marker does not start with the
line-comment marker. -/
lemma goStartsWith_block_not_line (s : List Char)
    (h : goStartsWith s (gs "/*") = true) :
    goStartsWith s (gs "//") = false := by
  match s with
  | [] => simp [goStartsWith, gs, List.isPrefixOf] at h
  | [c] => simp [goStartsWith, gs, List.isPrefixOf] at h
  | c :: d :: t =>
    simp [goStartsWith, gs, List.isPrefixOf] at h ⊢
    rcases h with ⟨h1, h2⟩
    subst h1
    subst h2
    decide

/-- Claim C1: for every file for which getFileStats returns a record, the
three counters of the record sum to the number of physical lines the scanner
delivered — each line increments exactly one counter. -/
theorem C1_counters_sum_to_lines (filename : List Char) (f : readOutcome)
    (r : fileLines) (h : getFileStats filename f = .record r) :
    r.codeLines + r.commentLines + r.whitespaceLines = (linesRead f).length := by
  cases f with
  | openError => simp [getFileStats] at h
  | ok lines =>
    simp only [getFileStats, scanResult.record.injEq] at h
    subst h
    have hsum := foldl_processLine_lineSum lines (false, ⟨filename, 0, 0, 0⟩)
    simpa [scanLines, fileLines.lineSum, linesRead] using hsum
  | readError linesBefore =>
    simp only [getFileStats, scanResult.record.injEq] at h
    subst h
    have hsum := foldl_processLine_lineSum linesBefore (false, ⟨filename, 0, 0, 0⟩)
    simpa [scanLines, fileLines.lineSum, linesRead] using hsum

/-- Claim C1, witnessed at a concrete three-line file. -/
theorem C1_counters_sum_to_lines_witness :
    getFileStats (gs "a.go") (.ok [gs "code", gs "", gs "// c"]) =
      .record ⟨gs "a.go", 1, 1, 1⟩ ∧
    (fileLines.mk (gs "a.go") 1 1 1).codeLines +
        (fileLines.mk (gs "a.go") 1 1 1).commentLines +
        (fileLines.mk (gs "a.go") 1 1 1).whitespaceLines =
      (linesRead (.ok [gs "code", gs "", gs "// c"])).length :=
  ⟨by decide,
    C1_counters_sum_to_lines (gs "a.go") (.ok [gs "code", gs "", gs "// c"])
      ⟨gs "a.go", 1, 1, 1⟩ (by decide)⟩

/-- Claim C6: a trimmed line starting with the line-comment marker, seen with
no block comment open, is classified Comment by the line-comment check with
no state change — the block-open check is never reached, whatever else the
line contains. -/
theorem C6_line_comment_wins (rawLine : List Char) (res : fileLines)
    (h : goStartsWith (goTrimSpace rawLine) (gs "//") = true) :
    processLine (false, res) rawLine =
      (false, { res with commentLines := res.commentLines + 1 }) := by
  have hne : (goTrimSpace rawLine).length ≠ 0 := goStartsWith_ne_nil _ '/' '/' h
  simp [processLine, hne, h]

/-- Claim C6, witnessed at the spec's example line. -/
theorem C6_line_comment_wins_witness :
    goStartsWith (goTrimSpace (gs "// not /* a block comment */")) (gs "//") = true ∧
    processLine (false, ⟨gs "f.go", 0, 0, 0⟩) (gs "// not /* a block comment */") =
      (false, ⟨gs "f.go", 0, 1, 0⟩) :=
  ⟨by decide,
    C6_line_comment_wins (gs "// not /* a block comment */") ⟨gs "f.go", 0, 0, 0⟩ (by decide)⟩

/-- Claim C7: a trimmed line that both starts with the block-open marker and
ends with the block-close marker, seen with no block comment open, is counted
once as Comment and leaves the flag false for the next line. -/
theorem C7_single_line_block_comment (rawLine : List Char) (res : fileLines)
    (ho : goStartsWith (goTrimSpace rawLine) (gs "/*") = true)
    (hc : goEndsWith (goTrimSpace rawLine) (gs "*/") = true) :
    processLine (false, res) rawLine =
      (false, { res with commentLines := res.commentLines + 1 }) := by
  have hne : (goTrimSpace rawLine).length ≠ 0 := goStartsWith_ne_nil _ '/' '*' ho
  have hll : goStartsWith (goTrimSpace rawLine) (gs "//") = false :=
    goStartsWith_block_not_line _ ho
  simp [processLine, hne, ho, hc, hll]

/-- Claim C7, witnessed at the spec's example line. -/
theorem C7_single_line_block_comment_witness :
    goStartsWith (goTrimSpace (gs "/* comment */")) (gs "/*") = true ∧
    goEndsWith (goTrimSpace (gs "/* comment */")) (gs "*/") = true ∧
    processLine (false, ⟨gs "f.go", 0, 0, 0⟩) (gs "/* comment */") =
      (false, ⟨gs "f.go", 0, 1, 0⟩) :=
  ⟨by decide, by decide,
    C7_single_line_block_comment (gs "/* comment */") ⟨gs "f.go", 0, 0, 0⟩
      (by decide) (by decide)⟩

/-- Claim C10: a non-blank trimmed line seen with no block comment open that
starts with neither comment marker is classified Code with the state left
unchanged, even when it contains or ends with the block-close marker. -/
theorem C10_stray_close_marker_is_code (rawLine : List Char) (res : fileLines)
    (hne : (goTrimSpace rawLine).length ≠ 0)
    (h2 : goStartsWith (goTrimSpace rawLine) (gs "//") = false)
    (h3 : goStartsWith (goTrimSpace rawLine) (gs "/*") = false) :
    processLine (false, res) rawLine =
      (false, { res with codeLines := res.codeLines + 1 }) := by
  simp [processLine, hne, h2, h3]

/-- Claim C10, witnessed at a line that ends with a stray close marker. -/
theorem C10_stray_close_marker_is_code_witness :
    (goTrimSpace (gs "end */")).length ≠ 0 ∧
    goStartsWith (goTrimSpace (gs "end */")) (gs "//") = false ∧
    goStartsWith (goTrimSpace (gs "end */")) (gs "/*") = false ∧
    goEndsWith (goTrimSpace (gs "end */")) (gs "*/") = true ∧
    processLine (false, ⟨gs "f.go", 0, 0, 0⟩) (gs "end */") =
      (false, ⟨gs "f.go", 1, 0, 0⟩) :=
  ⟨by decide, by decide, by decide, by decide,
    C10_stray_close_marker_is_code (gs "end */") ⟨gs "f.go", 0, 0, 0⟩
      (by decide) (by decide) (by decide)⟩

/-- Claim C2 as stated is false: at the line seen while the block-comment
flag is set, the line ends with the close marker, yet the flag is not
cleared — the block-open prefix check runs first and never clears the flag. -/
theorem C2_counterexample :
    ¬ ((processLine (true, ⟨gs "f.go", 0, 0, 0⟩) (gs "/* x */")).1 = false ↔
        goEndsWith (goTrimSpace (gs "/* x */")) (gs "*/") = true) := by decide

/-- Claim C2 as amended: while the block-comment flag is set, every non-blank
line is still classified Comment (all reachable branches count a comment),
but the flag is cleared after the line if and only if the line ends with the
close marker AND starts with neither the line-comment marker nor the
block-open marker — the two prefix checks run before the in-block check and
leave the flag set. -/
theorem C2_amended_in_block_comment (rawLine : List Char) (res : fileLines)
    (hne : (goTrimSpace rawLine).length ≠ 0) :
    (processLine (true, res) rawLine).2.commentLines = res.commentLines + 1 ∧
    (processLine (true, res) rawLine).2.codeLines = res.codeLines ∧
    (processLine (true, res) rawLine).2.whitespaceLines = res.whitespaceLines ∧
    ((processLine (true, res) rawLine).1 = false ↔
      (goStartsWith (goTrimSpace rawLine) (gs "//") = false ∧
        goStartsWith (goTrimSpace rawLine) (gs "/*") = false ∧
        goEndsWith (goTrimSpace rawLine) (gs "*/") = true)) := by
  cases h2 : goStartsWith (goTrimSpace rawLine) (gs "//") <;>
    cases h3 : goStartsWith (goTrimSpace rawLine) (gs "/*") <;>
      cases h4 : goEndsWith (goTrimSpace rawLine) (gs "*/") <;>
        simp [processLine, hne, h2, h3, h4]

/-- Claim C2 as amended, witnessed at a closing line inside a block comment. -/
theorem C2_amended_in_block_comment_witness :
    (goTrimSpace (gs "end of block */")).length ≠ 0 ∧
    ((processLine (true, ⟨gs "f.go", 0, 0, 0⟩) (gs "end of block */")).2.commentLines = 0 + 1 ∧
      (processLine (true, ⟨gs "f.go", 0, 0, 0⟩) (gs "end of block */")).2.codeLines = 0 ∧
      (processLine (true, ⟨gs "f.go", 0, 0, 0⟩) (gs "end of block */")).2.whitespaceLines = 0 ∧
      ((processLine (true, ⟨gs "f.go", 0, 0, 0⟩) (gs "end of block */")).1 = false ↔
        (goStartsWith (goTrimSpace (gs "end of block */")) (gs "//") = false ∧
          goStartsWith (goTrimSpace (gs "end of block */")) (gs "/*") = false ∧
          goEndsWith (goTrimSpace (gs "end of block */")) (gs "*/") = true))) :=
  ⟨by decide,
    C2_amended_in_block_comment (gs "end of block */") ⟨gs "f.go", 0, 0, 0⟩ (by decide)⟩

/-- Claim C3 fails in the code: with a nonexistent root, filepath.Walk hands
the stat error to the callback, which swallows it (a root without the .go
suffix is even dismissed by the suffix check before the error is looked at),
so Walk returns nil, main's log.Fatal guard never fires, and a report — with
only the TOTAL footer — is still produced. -/
theorem C3_missing_root_still_reports :
    mainRun [.missing (gs "nope")] = some ([], ⟨gs "TOTAL", 0, 0, 0⟩) ∧
    fileProcessor ⟨gs "nope", true, .ok []⟩ = .skippedDebug ∧
    fileProcessor ⟨gs "nope.go", true, .ok []⟩ = .skippedError ∧
    mainRun [.missing (gs "nope.go")] = some ([], ⟨gs "TOTAL", 0, 0, 0⟩) := by
  refine ⟨by decide, by decide, by decide, by decide⟩

/-- Claim C4 fails in the code: when a read error occurs mid-stream,
bufio.Scanner just stops delivering lines, the missing post-loop Err check
lets getFileStats fall through, and a partial record over the lines read so
far is emitted as if complete (only the open-failure half is fatal). -/
theorem C4_partial_record_on_read_error :
    getFileStats (gs "f.go") (.readError [gs "package main", gs "// c"]) =
      .record ⟨gs "f.go", 1, 1, 0⟩ ∧
    getFileStats (gs "f.go") (.readError [gs "package main", gs "// c"]) ≠ .fatal ∧
    getFileStats (gs "f.go") .openError = .fatal := by decide

/-- Folding `join` over a record list adds the elementwise sums of the three
counters onto the accumulator and never touches its filename. -/
lemma foldl_join_counts (l : List fileLines) :
    ∀ init : fileLines,
      (List.foldl fileLines.join init l).codeLines =
          init.codeLines + (l.map fileLines.codeLines).sum ∧
        (List.foldl fileLines.join init l).commentLines =
          init.commentLines + (l.map fileLines.commentLines).sum ∧
        (List.foldl fileLines.join init l).whitespaceLines =
          init.whitespaceLines + (l.map fileLines.whitespaceLines).sum ∧
        (List.foldl fileLines.join init l).filename = init.filename := by
  induction l with
  | nil => intro init; simp
  | cons r rs ih =>
    intro init
    have h := ih (init.join r)
    simp only [List.foldl_cons, List.map_cons, List.sum_cons]
    rw [h.1, h.2.1, h.2.2.1, h.2.2.2]
    simp only [fileLines.join]
    refine ⟨?_, ?_, ?_, trivial⟩ <;> dsimp only <;> omega

/-- Claim C5: the aggregator renders one row per received record in arrival
order (no deduplication, re-ordering or filtering), and its TOTAL equals the
elementwise sum of the three counters over all received records; for any
other arrival order of the same records the totals agree. -/
theorem C5_total_is_elementwise_sum (received other : List fileLines)
    (hperm : List.Perm received other) :
    (processResults received).1 =
      received.map
        (fun res => (res.filename, res.whitespaceLines, res.commentLines, res.codeLines)) ∧
    (processResults received).2.codeLines = (received.map fileLines.codeLines).sum ∧
    (processResults received).2.commentLines = (received.map fileLines.commentLines).sum ∧
    (processResults received).2.whitespaceLines =
      (received.map fileLines.whitespaceLines).sum ∧
    (processResults received).2.codeLines = (processResults other).2.codeLines ∧
    (processResults received).2.commentLines = (processResults other).2.commentLines ∧
    (processResults received).2.whitespaceLines = (processResults other).2.whitespaceLines := by
  have h1 := foldl_join_counts received ⟨gs "TOTAL", 0, 0, 0⟩
  have h2 := foldl_join_counts other ⟨gs "TOTAL", 0, 0, 0⟩
  refine ⟨rfl, ?_, ?_, ?_, ?_, ?_, ?_⟩
  · simpa [processResults] using h1.1
  · simpa [processResults] using h1.2.1
  · simpa [processResults] using h1.2.2.1
  · simp only [processResults]
    rw [h1.1, h2.1, List.Perm.sum_eq (List.Perm.map fileLines.codeLines hperm)]
  · simp only [processResults]
    rw [h1.2.1, h2.2.1, List.Perm.sum_eq (List.Perm.map fileLines.commentLines hperm)]
  · simp only [processResults]
    rw [h1.2.2.1, h2.2.2.1,
      List.Perm.sum_eq (List.Perm.map fileLines.whitespaceLines hperm)]

/-- Claim C5, witnessed at two concrete records received in both orders. -/
theorem C5_total_is_elementwise_sum_witness :
    List.Perm [fileLines.mk (gs "a.go") 3 0 1, fileLines.mk (gs "b.go") 0 2 0]
      [fileLines.mk (gs "b.go") 0 2 0, fileLines.mk (gs "a.go") 3 0 1] ∧
    ((processResults [fileLines.mk (gs "a.go") 3 0 1, fileLines.mk (gs "b.go") 0 2 0]).1 =
      [(gs "a.go", 1, 0, 3), (gs "b.go", 0, 2, 0)] ∧
    (processResults [fileLines.mk (gs "a.go") 3 0 1,
        fileLines.mk (gs "b.go") 0 2 0]).2.codeLines = 3 ∧
    (processResults [fileLines.mk (gs "a.go") 3 0 1,
        fileLines.mk (gs "b.go") 0 2 0]).2.commentLines = 2 ∧
    (processResults [fileLines.mk (gs "a.go") 3 0 1,
        fileLines.mk (gs "b.go") 0 2 0]).2.whitespaceLines = 1 ∧
    (processResults [fileLines.mk (gs "a.go") 3 0 1,
        fileLines.mk (gs "b.go") 0 2 0]).2.codeLines =
      (processResults [fileLines.mk (gs "b.go") 0 2 0,
        fileLines.mk (gs "a.go") 3 0 1]).2.codeLines ∧
    (processResults [fileLines.mk (gs "a.go") 3 0 1,
        fileLines.mk (gs "b.go") 0 2 0]).2.commentLines =
      (processResults [fileLines.mk (gs "b.go") 0 2 0,
        fileLines.mk (gs "a.go") 3 0 1]).2.commentLines ∧
    (processResults [fileLines.mk (gs "a.go") 3 0 1,
        fileLines.mk (gs "b.go") 0 2 0]).2.whitespaceLines =
      (processResults [fileLines.mk (gs "b.go") 0 2 0,
        fileLines.mk (gs "a.go") 3 0 1]).2.whitespaceLines) := by
  refine ⟨by decide, ?_⟩
  have h := C5_total_is_elementwise_sum
    [fileLines.mk (gs "a.go") 3 0 1, fileLines.mk (gs "b.go") 0 2 0]
    [fileLines.mk (gs "b.go") 0 2 0, fileLines.mk (gs "a.go") 3 0 1] (by decide)
  exact ⟨by decide, by decide, by decide, by decide, h.2.2.2.2.1, h.2.2.2.2.2.1, h.2.2.2.2.2.2⟩

/-- Claim C8: for an entry visited without a walk error on a file that opens,
a record is scanned and emitted exactly when the path ends in the .go
suffix — the record being the scan of the lines delivered — and every
non-matching path is skipped with only a debug trace, never an error. -/
theorem C8_suffix_eligibility (e : walkEntry)
    (hok : e.walkErr = false) (hread : e.content ≠ readOutcome.openError) :
    ((∃ r, fileProcessor e = .emitted r) ↔ goEndsWith e.path (gs ".go") = true) ∧
    (goEndsWith e.path (gs ".go") = true →
      fileProcessor e = .emitted (scanLines e.path (linesRead e.content))) ∧
    (goEndsWith e.path (gs ".go") = false → fileProcessor e = .skippedDebug) := by
  cases hc : e.content with
  | openError => exact absurd hc hread
  | ok lines =>
    cases hs : goEndsWith e.path (gs ".go") <;>
      simp [fileProcessor, hs, hok, hc, getFileStats, linesRead]
  | readError lb =>
    cases hs : goEndsWith e.path (gs ".go") <;>
      simp [fileProcessor, hs, hok, hc, getFileStats, linesRead]

/-- Claim C8, witnessed at a non-matching file: only a debug-level skip. -/
theorem C8_suffix_eligibility_witness :
    ((∃ r, fileProcessor ⟨gs "readme.txt", false, .ok [gs "hello"]⟩ = .emitted r) ↔
      goEndsWith (gs "readme.txt") (gs ".go") = true) ∧
    (goEndsWith (gs "readme.txt") (gs ".go") = true →
      fileProcessor ⟨gs "readme.txt", false, .ok [gs "hello"]⟩ =
        .emitted (scanLines (gs "readme.txt") (linesRead (.ok [gs "hello"])))) ∧
    (goEndsWith (gs "readme.txt") (gs ".go") = false →
      fileProcessor ⟨gs "readme.txt", false, .ok [gs "hello"]⟩ = .skippedDebug) :=
  C8_suffix_eligibility ⟨gs "readme.txt", false, .ok [gs "hello"]⟩ rfl (by decide)

/-- A skipped entry contributes nothing to the emitted stream, wherever it
sits in the visit order. -/
lemma processEntries_skip (e : walkEntry)
    (he : fileProcessor e = .skippedDebug ∨ fileProcessor e = .skippedError) :
    ∀ pre post : List walkEntry,
      processEntries (pre ++ e :: post) = processEntries (pre ++ post) := by
  intro pre
  induction pre with
  | nil =>
    intro post
    rcases he with h | h <;> simp [processEntries, h]
  | cons a t ih =>
    intro post
    simp only [List.cons_append, processEntries, List.append_eq, ih post]

/-- Claim C9: an entry visited with a traversal error is merely skipped —
with a debug trace when its name lacks the .go suffix, an error log
otherwise, never a fatal abort or an emitted row — and the run over the
remaining entries is exactly the run without it, so it is simply absent from
the report. -/
theorem C9_traversal_error_nonfatal (pre post : List walkEntry) (e : walkEntry)
    (he : e.walkErr = true) :
    mainRun [.found (pre ++ e :: post)] = mainRun [.found (pre ++ post)] ∧
    (fileProcessor e = .skippedDebug ∨ fileProcessor e = .skippedError) := by
  have hskip : fileProcessor e = .skippedDebug ∨ fileProcessor e = .skippedError := by
    by_cases hs : goEndsWith e.path (gs ".go") = true
    · right
      simp [fileProcessor, hs, he]
    · left
      simp [fileProcessor, hs]
  refine ⟨?_, hskip⟩
  simp [mainRun, rootEntries, processEntries_skip e hskip pre post]

/-- Claim C9, witnessed at the spec's scenario: the unreadable entry `locked`
is absent while its readable sibling `c.go` is reported, and the run
completes. -/
theorem C9_traversal_error_nonfatal_witness :
    mainRun [.found [⟨gs "a.go", false, .ok [gs "foo()"]⟩,
        ⟨gs "locked", true, .ok []⟩,
        ⟨gs "c.go", false, .ok [gs "// c"]⟩]] =
      mainRun [.found [⟨gs "a.go", false, .ok [gs "foo()"]⟩,
        ⟨gs "c.go", false, .ok [gs "// c"]⟩]] ∧
    (fileProcessor ⟨gs "locked", true, .ok []⟩ = .skippedDebug ∨
      fileProcessor ⟨gs "locked", true, .ok []⟩ = .skippedError) :=
  C9_traversal_error_nonfatal [⟨gs "a.go", false, .ok [gs "foo()"]⟩]
    [⟨gs "c.go", false, .ok [gs "// c"]⟩] ⟨gs "locked", true, .ok []⟩ rfl
